import Mathlib

/-!
Verification of the user/blocklist domain logic of the szurubooru fork
(`szurubooru/func/users.py`), shallowly embedded in Lean 4.

The persistence layer is modelled as an explicit state (`DbState`) holding the
`user_tag_blocklist` table as an ordered list of rows; database-touching
functions thread this state and return it alongside their result, so that the
absence of writes is visible in the embedding.  External collaborators that
live outside this slice (the tag query, the privilege check, the file store,
the configuration) are passed in as explicit parameters, following the
collaborator contracts of the specification.
-/

namespace Szuru

/-- A tag, referenced by id only (external entity). -/
structure Tag where
  tag_id : Nat
deriving DecidableEq, Repr

/-- A row of the `user_tag_blocklist` join table: (user id, tag id). -/
structure UserTagBlocklist where
  user_id : Nat
  tag_id : Nat
deriving DecidableEq, Repr

/-- The slice of database state the blocklist functions touch: the ordered
rows of the `user_tag_blocklist` table. -/
structure DbState where
  blocklist : List UserTagBlocklist
deriving DecidableEq, Repr

/-- Embeds `get_blocklist_from_user`: queries the rows owned by the user.
The source issues the identical query twice and returns the second result;
both evaluate to the same filter of the table, so the embedding performs it
once.  A query does not change the store, hence the state is returned
unchanged. -/
def get_blocklist_from_user (st : DbState) (user_id : Nat) :
    List UserTagBlocklist × DbState :=
  (st.blocklist.filter (fun e => decide (e.user_id = user_id)), st)

/-- Embeds `delete_blocklist_from_user`: deletes every row owned by the user
(a genuine write to the store). -/
def delete_blocklist_from_user (st : DbState) (user_id : Nat) :
    Unit × DbState :=
  ((), ⟨st.blocklist.filter (fun e => decide (e.user_id ≠ user_id))⟩)

/-- Embeds `delete_blocklist_from_tag`: deletes every row referencing the
tag. -/
def delete_blocklist_from_tag (st : DbState) (tag_id : Nat) :
    Unit × DbState :=
  ((), ⟨st.blocklist.filter (fun e => decide (e.tag_id ≠ tag_id))⟩)

/-- The configuration entries consulted by the blocklist code.
`default_tag_blocklist` is the raw space-separated tag-name string, absent
when the configuration key is missing. -/
structure Config where
  default_tag_blocklist : Option String

/-- The removal loop of `update_user_blocklist`: walks the previously
persisted entries in order; an entry whose tag id does not occur in the new
id list is appended to `to_remove` and its id is removed (first occurrence,
as Python's `list.remove`) from the running id list. Returns
(`to_remove`, final running id list). -/
def blocklistRemoveLoop (entries : List UserTagBlocklist) (newIds : List Nat)
    (prevIds : List Nat) : List UserTagBlocklist × List Nat :=
  match entries with
  | [] => ([], prevIds)
  | e :: rest =>
    if e.tag_id ∈ newIds then
      blocklistRemoveLoop rest newIds prevIds
    else
      let r := blocklistRemoveLoop rest newIds (prevIds.erase e.tag_id)
      (e :: r.1, r.2)

/-- Embeds `update_user_blocklist`.  A `none` target means "account
creation": the configured default tag-name list (split on single spaces, as
Python's `split(' ')`) is resolved through the tag collaborator
`get_tags_by_exact_names` and staged as additions.  An explicit target list
is diffed against the persisted rows: the removal loop drops stale entries,
then every new id not in the surviving id list is staged as an addition.
Returns ((`to_add`, `to_remove`), threaded store state). -/
def update_user_blocklist (st : DbState) (cfg : Config)
    (get_tags_by_exact_names : List String → List Tag)
    (user_id : Nat) (new_blocklist_tags : Option (List Tag)) :
    (List UserTagBlocklist × List UserTagBlocklist) × DbState :=
  match new_blocklist_tags with
  | none =>
    match cfg.default_tag_blocklist with
    | some names =>
      (((get_tags_by_exact_names (names.splitOn " ")).map
          (fun e => ⟨user_id, e.tag_id⟩), []), st)
    | none => (([], []), st)
  | some newTags =>
    let new_blocklist_ids := newTags.map (fun e => e.tag_id)
    let q := get_blocklist_from_user st user_id
    let previous_blocklist_tags := q.1
    let previous_blocklist_ids := previous_blocklist_tags.map (fun e => e.tag_id)
    let r := blocklistRemoveLoop previous_blocklist_tags new_blocklist_ids
      previous_blocklist_ids
    let to_add := (new_blocklist_ids.filter (fun t => decide (t ∉ r.2))).map
      (fun t => (⟨user_id, t⟩ : UserTagBlocklist))
    ((to_add, r.1), q.2)

/-- Applying the diff returned by the reconciler to the store: delete every
staged removal row, then insert every staged addition (this is what the
caller of `update_user_blocklist` does with the returned pair). -/
def apply_blocklist_diff (st : DbState)
    (diff : List UserTagBlocklist × List UserTagBlocklist) : DbState :=
  ⟨(st.blocklist.filter (fun e => decide (e ∉ diff.2))) ++ diff.1⟩

/-! ### Users: ranks, email, avatar, name -/

/-- The rank tiers of a user account (`model.User.RANK_*`). -/
inductive Rank
  | anonymous
  | nobody
  | regular
  | power
  | moderator
  | administrator
deriving DecidableEq, Repr

/-- Modelled from the spec: `auth.RANK_MAP` lives in `szurubooru.func.auth`,
which is not part of this slice.  The spec fixes it as an ordered
bidirectional rank/name map with order
anonymous < nobody < regular < power < moderator < administrator. -/
def RANK_MAP : List (Rank × String) :=
  [(Rank.anonymous, "anonymous"), (Rank.nobody, "nobody"),
   (Rank.regular, "regular"), (Rank.power, "power"),
   (Rank.moderator, "moderator"), (Rank.administrator, "administrator")]

/-- `util.flip(auth.RANK_MAP).get(name, None)`: resolve a rank name. -/
def rankFromName (s : String) : Option Rank :=
  (RANK_MAP.find? (fun p => p.2 == s)).map (fun p => p.1)

/-- `list(auth.RANK_MAP.values())`: the rank constants in map order. -/
def all_ranks : List Rank := RANK_MAP.map (fun p => p.1)

/-- Python's `all_ranks.index(rank)`. -/
def rankIndex (r : Rank) : Nat := all_ranks.indexOf r

/-- The avatar style flag (`model.User.AVATAR_*`). -/
inductive AvatarStyle
  | gravatar
  | manual
deriving DecidableEq, Repr

/-- The user entity attributes this slice reads and writes. -/
structure User where
  user_id : Nat
  name : String
  email : Option String
  rank : Rank
  avatar_style : AvatarStyle
deriving DecidableEq, Repr

/-- The error classes raised by the user functions. -/
inductive UserFuncError
  | invalidUserName (msg : String)
  | userAlreadyExists (msg : String)
  | invalidRank (msg : String)
  | authError (msg : String)
  | invalidAvatar (msg : String)
deriving DecidableEq, Repr

/-- The configuration entries consulted by the name validator: the
`user_name_regex` check (an opaque collaborator predicate) and the size of
the name column (`util.value_exceeds_column_size`). -/
structure UsersConfig where
  user_name_regex : String → Bool
  name_column_size : Nat

/-- Python's `str.strip()`: drop whitespace from both ends (character-list
model, so that concrete instances evaluate). -/
def pyStrip (s : String) : String :=
  ⟨((s.data.dropWhile Char.isWhitespace).reverse.dropWhile
      Char.isWhitespace).reverse⟩

/-- Python's `str.lower()` (character-list model). -/
def pyLower (s : String) : String := ⟨s.data.map Char.toLower⟩

/-- Embeds `get_avatar_path`. -/
def get_avatar_path (user_name : String) : String :=
  "avatars/" ++ pyLower user_name ++ ".png"

/-- Embeds `try_get_user_by_name`: case-insensitive lookup in the user
table. -/
def try_get_user_by_name (users : List User) (name : String) : Option User :=
  users.find? (fun u => pyLower u.name == pyLower name)

/-- The file-store collaborator's `move(src, dst)` on the set of stored
paths: afterwards `dst` holds the file and `src` no longer does (unless it
equals `dst`). -/
def fileMove (files : List String) (src dst : String) : List String :=
  dst :: files.filter (fun p => decide (p ≠ src))

/-- Embeds `update_user_name`.  Validation: empty name, column size (checked
before stripping), regex on the stripped name, case-insensitive uniqueness.
On success, if the old name is set and an avatar file exists at its derived
path, that file is moved to the new name's derived path; returns the updated
user and the resulting file store. -/
def update_user_name (cfg : UsersConfig) (users : List User)
    (files : List String) (user : User) (name : String) :
    Except UserFuncError (User × List String) :=
  if name = "" then .error (.invalidUserName "Name cannot be empty.")
  else if cfg.name_column_size < name.length then
    .error (.invalidUserName "User name is too long.")
  else
    let stripped := pyStrip name
    if ¬ cfg.user_name_regex stripped then
      .error (.invalidUserName "User name must satisfy regex.")
    else
      let ok : Except UserFuncError (User × List String) :=
        .ok ({ user with name := stripped },
          if user.name ≠ "" ∧ get_avatar_path user.name ∈ files then
            fileMove files (get_avatar_path user.name)
              (get_avatar_path stripped)
          else files)
      match try_get_user_by_name users stripped with
      | some other =>
        if other.user_id ≠ user.user_id then
          .error (.userAlreadyExists "User already exists.")
        else ok
      | none => ok

/-- Embeds `update_user_rank`.  Empty name, unrecognized name and the two
sentinel ranks fail with `InvalidRank`; an acting user whose rank index is
strictly below the requested rank's index fails with `AuthError` when at
least one account exists; otherwise the rank is assigned. -/
def update_user_rank (user_count : Nat) (user : User) (rank : String)
    (auth_user : User) : Except UserFuncError User :=
  if rank = "" then .error (.invalidRank "Rank cannot be empty.")
  else
    match rankFromName (pyStrip rank) with
    | none => .error (.invalidRank "Rank unrecognized.")
    | some r =>
      if r = Rank.anonymous ∨ r = Rank.nobody then
        .error (.invalidRank "Rank cannot be used.")
      else if rankIndex auth_user.rank < rankIndex r ∧ 0 < user_count then
        .error (.authError "Trying to set higher rank than your own.")
      else .ok { user with rank := r }

/-- Embeds `get_email`.  The privilege check `auth.has_privilege` is an
external collaborator, passed in.  Returns the Python `Union[bool, str]`
value: the boolean `False` sentinel, or the stored (possibly absent)
email. -/
def get_email (user : User) (auth_user : User)
    (has_privilege : User → String → Bool) (force_show_email : Bool) :
    Sum Bool (Option String) :=
  if !force_show_email && auth_user.user_id != user.user_id
      && !(has_privilege auth_user "users:edit:any:email") then
    Sum.inl false
  else
    Sum.inr user.email

/-- The observable outcome of `update_user_avatar`: the raised error (if
any), the user entity afterwards, and the file store afterwards.  The entity
is reported even on failure because the source mutates `user.avatar_style`
before it can raise "Avatar content missing". -/
structure AvatarCallResult where
  error : Option UserFuncError
  user : User
  files : List String
deriving DecidableEq, Repr

/-- Embeds `update_user_avatar`.  Style "gravatar" only sets the flag.
Style "manual" sets the flag, then: with falsy content (absent or empty
bytes, Python's `not avatar_content`) it succeeds when the derived avatar
path already holds a file and raises `InvalidAvatar` otherwise; with real
content it stores the processed image at the derived path.  Any other style
raises `InvalidAvatar`. -/
def update_user_avatar (files : List String) (user : User)
    (avatar_style : String) (avatar_content : Option (List Nat)) :
    AvatarCallResult :=
  if avatar_style = "gravatar" then
    ⟨none, { user with avatar_style := AvatarStyle.gravatar }, files⟩
  else if avatar_style = "manual" then
    let user' := { user with avatar_style := AvatarStyle.manual }
    let avatar_path := "avatars/" ++ pyLower user.name ++ ".png"
    if avatar_content = none ∨ avatar_content = some [] then
      if avatar_path ∈ files then ⟨none, user', files⟩
      else ⟨some (.invalidAvatar "Avatar content missing."), user', files⟩
    else
      ⟨none, user',
        if avatar_path ∈ files then files else avatar_path :: files⟩
  else
    ⟨some (.invalidAvatar "Avatar style is invalid."), user, files⟩

/-! ### Closed forms for the reconciliation loop -/

theorem blocklistRemoveLoop_fst (entries : List UserTagBlocklist)
    (newIds prevIds : List Nat) :
    (blocklistRemoveLoop entries newIds prevIds).1
      = entries.filter (fun e => decide (e.tag_id ∉ newIds)) := by
  induction entries generalizing prevIds with
  | nil => simp [blocklistRemoveLoop]
  | cons e rest ih =>
    by_cases h : e.tag_id ∈ newIds <;>
      simp [blocklistRemoveLoop, h, ih, List.filter_cons]

theorem blocklistRemoveLoop_snd_subset (entries : List UserTagBlocklist)
    (newIds prevIds : List Nat) :
    ∀ x ∈ (blocklistRemoveLoop entries newIds prevIds).2, x ∈ prevIds := by
  induction entries generalizing prevIds with
  | nil => intro x hx; simpa [blocklistRemoveLoop] using hx
  | cons e rest ih =>
    intro x hx
    by_cases h : e.tag_id ∈ newIds
    · simp only [blocklistRemoveLoop, if_pos h] at hx
      exact ih prevIds x hx
    · simp only [blocklistRemoveLoop, if_neg h] at hx
      exact List.erase_subset _ _ (ih _ x hx)

theorem blocklistRemoveLoop_snd_of_nodup (entries : List UserTagBlocklist)
    (newIds : List Nat) :
    ∀ prevIds : List Nat, prevIds.Nodup →
      (blocklistRemoveLoop entries newIds prevIds).2
        = prevIds.filter (fun t =>
            decide (t ∉ (entries.filter
              (fun e => decide (e.tag_id ∉ newIds))).map (fun e => e.tag_id))) := by
  induction entries with
  | nil =>
    intro prevIds _
    simp [blocklistRemoveLoop]
  | cons e rest ih =>
    intro prevIds h
    by_cases hm : e.tag_id ∈ newIds
    · simp only [blocklistRemoveLoop, if_pos hm]
      rw [ih prevIds h]
      simp [List.filter_cons, hm]
    · simp only [blocklistRemoveLoop, if_neg hm]
      rw [ih (prevIds.erase e.tag_id) (h.erase _),
        h.erase_eq_filter e.tag_id, List.filter_filter]
      refine List.filter_congr ?_
      intro t _
      by_cases h1 : t = e.tag_id <;>
        by_cases h2 : t ∈ (rest.filter
            (fun e => decide (e.tag_id ∉ newIds))).map (fun e => e.tag_id) <;>
        simp [List.filter_cons, hm, h1, h2]

theorem blocklistRemoveLoop_snd_self (entries : List UserTagBlocklist)
    (newIds : List Nat) (h : (entries.map (fun e => e.tag_id)).Nodup) :
    (blocklistRemoveLoop entries newIds (entries.map (fun e => e.tag_id))).2
      = (entries.map (fun e => e.tag_id)).filter
          (fun t => decide (t ∈ newIds)) := by
  rw [blocklistRemoveLoop_snd_of_nodup entries newIds _ h]
  refine List.filter_congr ?_
  intro t ht
  obtain ⟨e0, he0, rfl⟩ := List.mem_map.mp ht
  rw [decide_eq_decide]
  constructor
  · intro hnb
    by_contra hm
    exact hnb (List.mem_map.mpr
      ⟨e0, List.mem_filter.mpr ⟨he0, by simpa using hm⟩, rfl⟩)
  · intro hm hmem
    obtain ⟨e1, he1, het⟩ := List.mem_map.mp hmem
    have h2 := (List.mem_filter.mp he1).2
    simp only [decide_eq_true_eq] at h2
    exact h2 (by rwa [het])

/-- The reconciler's diff, in closed form, for an explicit target list:
additions are the new ids not persisted (in target order, one per occurrence),
removals are the persisted entries whose id does not occur in the target. -/
theorem update_user_blocklist_explicit (st : DbState) (cfg : Config)
    (resolve : List String → List Tag) (user_id : Nat) (newTags : List Tag)
    (h : ((get_blocklist_from_user st user_id).1.map
      (fun e => e.tag_id)).Nodup) :
    update_user_blocklist st cfg resolve user_id (some newTags)
      = ((((newTags.map (fun e => e.tag_id)).filter (fun t =>
            decide (t ∉ (get_blocklist_from_user st user_id).1.map
              (fun e => e.tag_id)))).map
            (fun t => (⟨user_id, t⟩ : UserTagBlocklist)),
          (get_blocklist_from_user st user_id).1.filter (fun e =>
            decide (e.tag_id ∉ newTags.map (fun e => e.tag_id)))), st) := by
  have hfst := blocklistRemoveLoop_fst (get_blocklist_from_user st user_id).1
    (newTags.map (fun e => e.tag_id))
    ((get_blocklist_from_user st user_id).1.map (fun e => e.tag_id))
  have hsnd := blocklistRemoveLoop_snd_self (get_blocklist_from_user st user_id).1
    (newTags.map (fun e => e.tag_id)) h
  simp only [update_user_blocklist, hfst, hsnd]
  refine congrArg (fun x => (x, st)) ?_
  refine congrArg₂ Prod.mk ?_ rfl
  refine congrArg _ ?_
  refine List.filter_congr ?_
  intro t ht
  rw [decide_eq_decide, List.mem_filter]
  simp only [decide_eq_true_eq]
  constructor
  · intro hn hmem
    exact hn ⟨hmem, ht⟩
  · intro hn hmem
    exact hn hmem.1

/-- Claim C1: for a user whose persisted blocklist entries P have pairwise
distinct tag ids (the per-(user, tag) uniqueness invariant) and an explicit
target tag list T, `update_user_blocklist` returns as additions exactly one
new entry per tag id of T that is not among the tag ids of P, in the
caller-provided order of T, and as removals exactly those entries of P whose
tag id does not occur in T. -/
theorem C1_update_user_blocklist_diff (st : DbState) (cfg : Config)
    (resolve : List String → List Tag) (user_id : Nat) (newTags : List Tag)
    (h : ((get_blocklist_from_user st user_id).1.map
      (fun e => e.tag_id)).Nodup) :
    update_user_blocklist st cfg resolve user_id (some newTags)
      = ((((newTags.map (fun e => e.tag_id)).filter (fun t =>
            decide (t ∉ (get_blocklist_from_user st user_id).1.map
              (fun e => e.tag_id)))).map
            (fun t => (⟨user_id, t⟩ : UserTagBlocklist)),
          (get_blocklist_from_user st user_id).1.filter (fun e =>
            decide (e.tag_id ∉ newTags.map (fun e => e.tag_id)))), st) :=
  update_user_blocklist_explicit st cfg resolve user_id newTags h

/-- Witness for C1, the spec's own example: persisted tags {1, 2, 3} for
user 7 and target [2, 4] yield additions [(7, 4)] and removals
[(7, 1), (7, 3)], with the store untouched. -/
theorem C1_update_user_blocklist_diff_witness :
    update_user_blocklist ⟨[⟨7, 1⟩, ⟨7, 2⟩, ⟨7, 3⟩]⟩ ⟨none⟩ (fun _ => []) 7
        (some [⟨2⟩, ⟨4⟩])
      = (([⟨7, 4⟩], [⟨7, 1⟩, ⟨7, 3⟩]), ⟨[⟨7, 1⟩, ⟨7, 2⟩, ⟨7, 3⟩]⟩) :=
  (C1_update_user_blocklist_diff ⟨[⟨7, 1⟩, ⟨7, 2⟩, ⟨7, 3⟩]⟩ ⟨none⟩
    (fun _ => []) 7 [⟨2⟩, ⟨4⟩] (by decide)).trans (by decide)

theorem roundtrip_aux (rows : List UserTagBlocklist) (uid : Nat)
    (newIds : List Nat) :
    ((((rows.filter (fun e => decide (e ∉
          (rows.filter (fun e => decide (e.user_id = uid))).filter
            (fun e => decide (e.tag_id ∉ newIds)))))
        ++ ((newIds.filter (fun t => decide (t ∉
            (rows.filter (fun e => decide (e.user_id = uid))).map
              (fun e => e.tag_id)))).map
            (fun t => (⟨uid, t⟩ : UserTagBlocklist)))).filter
        (fun e => decide (e.user_id = uid))).map (fun e => e.tag_id)).toFinset
      = newIds.toFinset := by
  ext t
  simp only [List.mem_toFinset, List.mem_map, List.mem_filter,
    List.mem_append, decide_eq_true_eq]
  constructor
  · rintro ⟨e, ⟨⟨he | he, hu⟩, rfl⟩⟩
    · rcases he with ⟨hrow, hnr⟩
      by_contra hn
      exact hnr ⟨⟨hrow, hu⟩, hn⟩
    · rcases he with ⟨t', ht', rfl⟩
      exact ht'.1
  · intro ht
    by_cases hin : ∃ e, (e ∈ rows ∧ e.user_id = uid) ∧ e.tag_id = t
    · obtain ⟨e, ⟨hrow, hu⟩, rfl⟩ := hin
      refine ⟨e, ⟨Or.inl ⟨hrow, ?_⟩, hu⟩, rfl⟩
      rintro ⟨-, hbad⟩
      exact hbad ht
    · exact ⟨⟨uid, t⟩, ⟨Or.inr ⟨t, ⟨ht, hin⟩, rfl⟩, rfl⟩, rfl⟩

/-- Claim C2: applying the diff returned by `update_user_blocklist` for an
explicit target list (deleting every staged removal, inserting every staged
addition) and re-reading the user's blocklist yields, as a set, exactly the
target's tag ids.  The persisted entries are assumed to satisfy the
per-(user, tag) uniqueness invariant. -/
theorem C2_blocklist_roundtrip (st : DbState) (cfg : Config)
    (resolve : List String → List Tag) (user_id : Nat) (newTags : List Tag)
    (h : ((get_blocklist_from_user st user_id).1.map
      (fun e => e.tag_id)).Nodup) :
    (((get_blocklist_from_user
        (apply_blocklist_diff st
          (update_user_blocklist st cfg resolve user_id (some newTags)).1)
        user_id).1.map (fun e => e.tag_id)).toFinset)
      = ((newTags.map (fun e => e.tag_id)).toFinset) := by
  rw [update_user_blocklist_explicit st cfg resolve user_id newTags h]
  exact roundtrip_aux st.blocklist user_id (newTags.map (fun e => e.tag_id))

/-- Witness for C2: persisted tags {1, 2, 3} for user 7 with target [2, 4];
after applying the diff, re-reading gives exactly the tag-id set {2, 4}. -/
theorem C2_blocklist_roundtrip_witness :
    (((get_blocklist_from_user
        (apply_blocklist_diff ⟨[⟨7, 1⟩, ⟨7, 2⟩, ⟨7, 3⟩]⟩
          (update_user_blocklist ⟨[⟨7, 1⟩, ⟨7, 2⟩, ⟨7, 3⟩]⟩ ⟨none⟩
            (fun _ => []) 7 (some [⟨2⟩, ⟨4⟩])).1)
        7).1.map (fun e => e.tag_id)).toFinset)
      = (([⟨2⟩, ⟨4⟩] : List Tag).map (fun e => e.tag_id)).toFinset :=
  C2_blocklist_roundtrip ⟨[⟨7, 1⟩, ⟨7, 2⟩, ⟨7, 3⟩]⟩ ⟨none⟩ (fun _ => []) 7
    [⟨2⟩, ⟨4⟩] (by decide)

/-- Claim C3: reading a user's current blocklist is deterministic — whenever
the user's blocklist rows are unchanged between two store states, the two
reads return the same entries in the identical order. -/
theorem C3_get_blocklist_deterministic (st st' : DbState) (user_id : Nat)
    (h : st.blocklist.filter (fun e => decide (e.user_id = user_id))
       = st'.blocklist.filter (fun e => decide (e.user_id = user_id))) :
    (get_blocklist_from_user st user_id).1
      = (get_blocklist_from_user st' user_id).1 := h

/-- Witness for C3: two stores that agree on user 1's rows (but not on other
rows, nor on row order) give identical reads for user 1. -/
theorem C3_get_blocklist_deterministic_witness :
    (get_blocklist_from_user ⟨[⟨1, 2⟩, ⟨3, 4⟩]⟩ 1).1
      = (get_blocklist_from_user ⟨[⟨3, 9⟩, ⟨1, 2⟩]⟩ 1).1 :=
  C3_get_blocklist_deterministic ⟨[⟨1, 2⟩, ⟨3, 4⟩]⟩ ⟨[⟨3, 9⟩, ⟨1, 2⟩]⟩ 1
    (by decide)

/-- Claim C8: with a `none` target, `update_user_blocklist` stages as
additions exactly one entry per tag resolved from the configured
default-blocklist name list (none when the configuration key is absent) and
no removals; and an explicit target — even the empty list — never consults
the configuration or the tag resolver. -/
theorem C8_default_blocklist (st : DbState) (cfg : Config)
    (resolve : List String → List Tag) (user_id : Nat) :
    (cfg.default_tag_blocklist = none →
      update_user_blocklist st cfg resolve user_id none = (([], []), st))
  ∧ (∀ s, cfg.default_tag_blocklist = some s →
      update_user_blocklist st cfg resolve user_id none
        = (((resolve (s.splitOn " ")).map
            (fun e => (⟨user_id, e.tag_id⟩ : UserTagBlocklist)), []), st))
  ∧ (update_user_blocklist st cfg resolve user_id none).1.2 = []
  ∧ (∀ (newTags : List Tag) (cfg' : Config)
        (resolve' : List String → List Tag),
      update_user_blocklist st cfg resolve user_id (some newTags)
        = update_user_blocklist st cfg' resolve' user_id (some newTags)) := by
  refine ⟨?_, ?_, ?_, ?_⟩
  · intro h
    simp [update_user_blocklist, h]
  · intro s h
    simp [update_user_blocklist, h]
  · rcases hc : cfg.default_tag_blocklist with - | s <;>
      simp [update_user_blocklist, hc]
  · intro newTags cfg' resolve'
    rfl

/-- Witness for C8: configured default list "a b" resolving to tags {5, 6}
stages additions [(3, 5), (3, 6)] and no removals for user 3. -/
theorem C8_default_blocklist_witness :
    update_user_blocklist ⟨[]⟩ ⟨some "a b"⟩ (fun _ => [⟨5⟩, ⟨6⟩]) 3 none
      = (([⟨3, 5⟩, ⟨3, 6⟩], []), ⟨[]⟩) :=
  ((C8_default_blocklist ⟨[]⟩ ⟨some "a b"⟩ (fun _ => [⟨5⟩, ⟨6⟩]) 3).2.1
    "a b" rfl).trans (by decide)

/-- Claim C9: `update_user_blocklist` performs no write to the store — for
every target (explicit or `none`) the threaded store state comes back
unchanged; the function only computes the diff. -/
theorem C9_update_user_blocklist_no_mutation (st : DbState) (cfg : Config)
    (resolve : List String → List Tag) (user_id : Nat)
    (new_blocklist_tags : Option (List Tag)) :
    (update_user_blocklist st cfg resolve user_id new_blocklist_tags).2
      = st := by
  cases new_blocklist_tags with
  | none =>
    rcases hc : cfg.default_tag_blocklist with - | s <;>
      simp [update_user_blocklist, hc]
  | some ts => rfl

/-- Claim C10: the reconciler does not deduplicate the explicit target list.
If tag id `t` is not persisted for the user, a target in which `t` occurs
twice yields two addition entries with the same (user id, tag id) pair, and
applying that plan leaves the user's blocklist with duplicate rows (breaking
per-(user, tag) uniqueness).  Only for a duplicate-free target (and
duplicate-free persisted state) are the additions duplicate-free and
disjoint from the persisted tag ids. -/
theorem C10_no_dedup_of_target (st : DbState) (cfg : Config)
    (resolve : List String → List Tag) (user_id t : Nat)
    (h : t ∉ (get_blocklist_from_user st user_id).1.map (fun e => e.tag_id)) :
    ((update_user_blocklist st cfg resolve user_id
        (some [⟨t⟩, ⟨t⟩])).1.1 = [⟨user_id, t⟩, ⟨user_id, t⟩])
  ∧ ¬ ((get_blocklist_from_user
        (apply_blocklist_diff st
          (update_user_blocklist st cfg resolve user_id
            (some [⟨t⟩, ⟨t⟩])).1) user_id).1.Nodup)
  ∧ (∀ (newTags : List Tag),
      (newTags.map (fun e => e.tag_id)).Nodup →
      ((get_blocklist_from_user st user_id).1.map (fun e => e.tag_id)).Nodup →
      ((update_user_blocklist st cfg resolve user_id
          (some newTags)).1.1.Nodup
        ∧ ∀ a ∈ (update_user_blocklist st cfg resolve user_id
            (some newTags)).1.1,
            a.tag_id ∉ (get_blocklist_from_user st user_id).1.map
              (fun e => e.tag_id))) := by
  have hnotin : t ∉ (blocklistRemoveLoop
      ((get_blocklist_from_user st user_id).1) [t, t]
      ((get_blocklist_from_user st user_id).1.map (fun e => e.tag_id))).2 :=
    fun hx => h (blocklistRemoveLoop_snd_subset _ _ _ t hx)
  have hadd2 : (update_user_blocklist st cfg resolve user_id
      (some [⟨t⟩, ⟨t⟩])).1.1 = [⟨user_id, t⟩, ⟨user_id, t⟩] := by
    simp [update_user_blocklist, List.filter_cons, hnotin]
  refine ⟨hadd2, ?_, ?_⟩
  · have hread : (get_blocklist_from_user
        (apply_blocklist_diff st
          (update_user_blocklist st cfg resolve user_id
            (some [⟨t⟩, ⟨t⟩])).1) user_id).1
        = (st.blocklist.filter (fun e => decide (e ∉
            (update_user_blocklist st cfg resolve user_id
              (some [⟨t⟩, ⟨t⟩])).1.2))).filter
            (fun e => decide (e.user_id = user_id))
          ++ [⟨user_id, t⟩, ⟨user_id, t⟩] := by
      show ((st.blocklist.filter (fun e => decide (e ∉
          (update_user_blocklist st cfg resolve user_id
            (some [⟨t⟩, ⟨t⟩])).1.2)))
          ++ (update_user_blocklist st cfg resolve user_id
            (some [⟨t⟩, ⟨t⟩])).1.1).filter
          (fun e => decide (e.user_id = user_id)) = _
      rw [hadd2, List.filter_append]
      simp
    rw [hread]
    intro hnd
    have h2 := hnd.sublist (List.sublist_append_right _ _)
    simp [List.nodup_cons] at h2
  · intro newTags hT hP
    have hadds : (update_user_blocklist st cfg resolve user_id
        (some newTags)).1.1
        = ((newTags.map (fun e => e.tag_id)).filter (fun t' =>
            decide (t' ∉ (get_blocklist_from_user st user_id).1.map
              (fun e => e.tag_id)))).map
            (fun t' => (⟨user_id, t'⟩ : UserTagBlocklist)) := by
      rw [update_user_blocklist_explicit st cfg resolve user_id newTags hP]
    rw [hadds]
    constructor
    · exact (hT.filter _).map
        (fun a b hab => congrArg UserTagBlocklist.tag_id hab)
    · intro a ha
      obtain ⟨t', ht', rfl⟩ := List.mem_map.mp ha
      have h2 := (List.mem_filter.mp ht').2
      simpa using h2

/-- Claim C5: `update_user_rank` raises `InvalidRank` exactly for an empty,
unrecognized, or sentinel (anonymous/nobody) rank name; it raises
`AuthError` exactly when the requested rank is a recognized assignable rank
strictly above the acting user's rank and at least one account exists; in
every other case it assigns the requested rank.  The rank order and name map
are modelled from the spec (`auth.RANK_MAP` is outside this slice). -/
theorem C5_update_user_rank_cases (user_count : Nat) (user : User)
    (rank : String) (auth_user : User) :
    ((∃ m, update_user_rank user_count user rank auth_user
        = .error (.invalidRank m))
      ↔ (rank = "" ∨ rankFromName (pyStrip rank) = none
          ∨ rankFromName (pyStrip rank) = some Rank.anonymous
          ∨ rankFromName (pyStrip rank) = some Rank.nobody))
  ∧ ((∃ m, update_user_rank user_count user rank auth_user
        = .error (.authError m))
      ↔ (rank ≠ "" ∧ ∃ r, rankFromName (pyStrip rank) = some r
          ∧ r ≠ Rank.anonymous ∧ r ≠ Rank.nobody
          ∧ rankIndex auth_user.rank < rankIndex r ∧ 0 < user_count))
  ∧ (∀ r, rank ≠ "" → rankFromName (pyStrip rank) = some r →
      r ≠ Rank.anonymous → r ≠ Rank.nobody →
      ¬ (rankIndex auth_user.rank < rankIndex r ∧ 0 < user_count) →
      update_user_rank user_count user rank auth_user
        = .ok { user with rank := r }) := by
  by_cases he : rank = ""
  · refine ⟨?_, ?_, ?_⟩
    · simp [update_user_rank, he]
    · simp [update_user_rank, he]
    · intro r hne
      exact absurd he hne
  · rcases hr : rankFromName (pyStrip rank) with - | r
    · refine ⟨?_, ?_, ?_⟩
      · simp [update_user_rank, he, hr]
      · simp [update_user_rank, he, hr]
      · intro r _ hsome
        cases hsome
    · by_cases hs : r = Rank.anonymous ∨ r = Rank.nobody
      · rcases hs with h1 | h1
        · subst h1
          refine ⟨by simp [update_user_rank, he, hr],
            by simp [update_user_rank, he, hr], ?_⟩
          intro r' _ hsome hna _ _
          exact absurd (Option.some.inj hsome).symm hna
        · subst h1
          refine ⟨by simp [update_user_rank, he, hr],
            by simp [update_user_rank, he, hr], ?_⟩
          intro r' _ hsome _ hnn _
          exact absurd (Option.some.inj hsome).symm hnn
      · push_neg at hs
        by_cases ha : rankIndex auth_user.rank < rankIndex r ∧ 0 < user_count
        · refine ⟨?_, ?_, ?_⟩
          · simp [update_user_rank, he, hr, hs.1, hs.2, ha]
          · simp [update_user_rank, he, hr, hs.1, hs.2, ha]
          · intro r' _ hsome _ _ hno
            obtain rfl := (Option.some.inj hsome)
            exact absurd ha hno
        · refine ⟨?_, ?_, ?_⟩
          · simp [update_user_rank, he, hr, hs.1, hs.2, ha]
          · simp [update_user_rank, he, hr, hs.1, hs.2, ha]
          · intro r' _ hsome _ _ _
            obtain rfl := (Option.some.inj hsome)
            simp [update_user_rank, he, hr, hs.1, hs.2, ha]

/-- Witness for C5: an administrator promoting user 1 to moderator (with 5
accounts existing) succeeds and assigns the rank. -/
theorem C5_update_user_rank_cases_witness :
    update_user_rank 5 ⟨1, "u", none, Rank.regular, AvatarStyle.gravatar⟩
        "moderator" ⟨2, "a", none, Rank.administrator, AvatarStyle.gravatar⟩
      = .ok ⟨1, "u", none, Rank.moderator, AvatarStyle.gravatar⟩ :=
  (C5_update_user_rank_cases 5
      ⟨1, "u", none, Rank.regular, AvatarStyle.gravatar⟩ "moderator"
      ⟨2, "a", none, Rank.administrator, AvatarStyle.gravatar⟩).2.2
    Rank.moderator (by decide) (by decide) (by decide) (by decide) (by decide)

/-- Claim C6: the serialized email field is the boolean `False` sentinel
exactly when `forceShow` is unset, the viewer is not the subject and the
viewer lacks the cross-view privilege; in every other case it is the stored
email, including the absent value. -/
theorem C6_get_email_visibility (user auth_user : User)
    (has_privilege : User → String → Bool) (force_show_email : Bool) :
    (get_email user auth_user has_privilege force_show_email
        = Sum.inl false
      ↔ (force_show_email = false ∧ auth_user.user_id ≠ user.user_id
          ∧ has_privilege auth_user "users:edit:any:email" = false))
  ∧ ((force_show_email = true ∨ auth_user.user_id = user.user_id
        ∨ has_privilege auth_user "users:edit:any:email" = true) →
      get_email user auth_user has_privilege force_show_email
        = Sum.inr user.email) := by
  unfold get_email
  by_cases h1 : force_show_email = true <;>
    by_cases h2 : auth_user.user_id = user.user_id <;>
      by_cases h3 : has_privilege auth_user "users:edit:any:email" = true <;>
        simp_all

/-- Witness for C6: the subject viewing themselves with no stored email gets
the absent email value (not the false sentinel). -/
theorem C6_get_email_visibility_witness :
    get_email ⟨1, "u", none, Rank.regular, AvatarStyle.gravatar⟩
        ⟨1, "u", none, Rank.regular, AvatarStyle.gravatar⟩
        (fun _ _ => false) false
      = Sum.inr none :=
  (C6_get_email_visibility ⟨1, "u", none, Rank.regular, AvatarStyle.gravatar⟩
      ⟨1, "u", none, Rank.regular, AvatarStyle.gravatar⟩
      (fun _ _ => false) false).2 (Or.inr (Or.inl rfl))

/-- Claim C4 (amended): when `update_user_avatar` raises, an unknown style
leaves the user and the file store untouched, but style "manual" (raising
"content missing") has already set `user.avatar_style` to manual — the
avatar fields are not left unchanged on that failure path. -/
theorem C4_update_user_avatar_error_state (files : List String) (user : User)
    (avatar_style : String) (avatar_content : Option (List Nat))
    (herr : (update_user_avatar files user avatar_style
        avatar_content).error.isSome = true) :
    ((avatar_style ≠ "gravatar" ∧ avatar_style ≠ "manual") →
      (update_user_avatar files user avatar_style avatar_content).user = user
      ∧ (update_user_avatar files user avatar_style avatar_content).files
        = files)
  ∧ (avatar_style = "manual" →
      (update_user_avatar files user avatar_style avatar_content).user
        = { user with avatar_style := AvatarStyle.manual }
      ∧ (update_user_avatar files user avatar_style avatar_content).files
        = files) := by
  by_cases h1 : avatar_style = "gravatar"
  · simp [update_user_avatar, h1] at herr
  · by_cases h2 : avatar_style = "manual"
    · rcases h3 : avatar_content with - | bytes
      · by_cases h4 : ("avatars/" ++ pyLower user.name ++ ".png") ∈ files
        · simp [update_user_avatar, h1, h2, h4] at herr
        · refine ⟨fun hc => absurd h2 hc.2, fun _ => ?_⟩
          simp [update_user_avatar, h1, h2, h4]
      · by_cases h5 : bytes = []
        · subst h5
          by_cases h4 : ("avatars/" ++ pyLower user.name ++ ".png") ∈ files
          · simp [update_user_avatar, h1, h2, h4] at herr
          · refine ⟨fun hc => absurd h2 hc.2, fun _ => ?_⟩
            simp [update_user_avatar, h1, h2, h4]
        · simp [update_user_avatar, h1, h2, h3, h5] at herr
    · refine ⟨fun _ => ?_, fun hc => absurd hc h2⟩
      simp [update_user_avatar, h1, h2]

/-- Counterexample for C4 as stated: style "manual" with no content and no
stored avatar file raises `InvalidAvatar` ("content missing") yet the user's
`avatar_style`, gravatar before the call, is manual afterwards. -/
theorem C4_counterexample :
    ((update_user_avatar [] ⟨1, "alice", none, Rank.regular,
        AvatarStyle.gravatar⟩ "manual" none).error
      = some (UserFuncError.invalidAvatar "Avatar content missing."))
  ∧ ((update_user_avatar [] ⟨1, "alice", none, Rank.regular,
        AvatarStyle.gravatar⟩ "manual" none).user.avatar_style
      = AvatarStyle.manual)
  ∧ ((⟨1, "alice", none, Rank.regular, AvatarStyle.gravatar⟩ :
        User).avatar_style ≠ AvatarStyle.manual) := by
  refine ⟨?_, ?_, ?_⟩ <;> decide

/-- Witness for C4 (amended): an unknown style "weird" raises and leaves the
user entity unchanged. -/
theorem C4_update_user_avatar_error_state_witness :
    (update_user_avatar [] ⟨1, "bob", none, Rank.regular,
        AvatarStyle.gravatar⟩ "weird" none).user
      = ⟨1, "bob", none, Rank.regular, AvatarStyle.gravatar⟩ :=
  ((C4_update_user_avatar_error_state []
      ⟨1, "bob", none, Rank.regular, AvatarStyle.gravatar⟩ "weird" none
      (by decide)).1 (by decide)).1

theorem update_user_name_ok_shape (cfg : UsersConfig) (users : List User)
    (files : List String) (user : User) (name : String) (u' : User)
    (files' : List String)
    (hok : update_user_name cfg users files user name
      = Except.ok (u', files')) :
    u' = { user with name := pyStrip name }
    ∧ files' = (if user.name ≠ "" ∧ get_avatar_path user.name ∈ files then
        fileMove files (get_avatar_path user.name)
          (get_avatar_path (pyStrip name))
      else files) := by
  simp only [update_user_name] at hok
  split at hok
  · cases hok
  · split at hok
    · cases hok
    · split at hok
      · cases hok
      · split at hok
        · split at hok
          · cases hok
          · simp only [Except.ok.injEq, Prod.mk.injEq] at hok
            exact ⟨hok.1.symm, hok.2.symm⟩
        · simp only [Except.ok.injEq, Prod.mk.injEq] at hok
          exact ⟨hok.1.symm, hok.2.symm⟩

/-- Claim C7 (amended): when a rename succeeds, the old name was set, an
avatar file existed at the old name's derived path, and the old and new
derived paths differ, the file afterwards exists at the new derived path and
no longer at the old one.  (When the two derived paths coincide — a rename
differing only in letter case — the old path still resolves.) -/
theorem C7_rename_relocates_avatar (cfg : UsersConfig) (users : List User)
    (files : List String) (user : User) (name : String) (u' : User)
    (files' : List String)
    (hok : update_user_name cfg users files user name
      = Except.ok (u', files'))
    (hold : user.name ≠ "")
    (hex : get_avatar_path user.name ∈ files)
    (hne : get_avatar_path user.name ≠ get_avatar_path u'.name) :
    get_avatar_path u'.name ∈ files'
    ∧ get_avatar_path user.name ∉ files' := by
  obtain ⟨hu, hf⟩ :=
    update_user_name_ok_shape cfg users files user name u' files' hok
  subst hu
  rw [if_pos ⟨hold, hex⟩] at hf
  subst hf
  constructor
  · exact List.mem_cons_self _ _
  · intro hmem
    rcases List.mem_cons.mp hmem with h | h
    · exact hne h
    · have h2 := List.mem_filter.mp h
      have h3 : get_avatar_path user.name ≠ get_avatar_path user.name := by
        simpa using h2.2
      exact h3 rfl

/-- Counterexample for C7 as stated: renaming "Alice" to "ALICE" (valid and
successful — the case-insensitive uniqueness check matches the user itself)
derives the same avatar path for both names, so after the rename the old
derived path still resolves to a file. -/
theorem C7_counterexample :
    (update_user_name ⟨fun _ => true, 100⟩
        [⟨1, "Alice", none, Rank.regular, AvatarStyle.gravatar⟩]
        ["avatars/alice.png"]
        ⟨1, "Alice", none, Rank.regular, AvatarStyle.gravatar⟩ "ALICE"
      = Except.ok (⟨1, "ALICE", none, Rank.regular, AvatarStyle.gravatar⟩,
          ["avatars/alice.png"]))
    ∧ get_avatar_path "Alice" ∈ (["avatars/alice.png"] : List String)
    ∧ get_avatar_path "ALICE" = get_avatar_path "Alice" :=
  ⟨rfl, by decide, by decide⟩

/-- Witness for C7 (amended): renaming "Bob" to "Carl" with a stored avatar
at "avatars/bob.png" moves the file to "avatars/carl.png" and the old path
no longer resolves. -/
theorem C7_rename_relocates_avatar_witness :
    get_avatar_path "Carl" ∈ (["avatars/carl.png"] : List String)
    ∧ get_avatar_path "Bob" ∉ (["avatars/carl.png"] : List String) :=
  C7_rename_relocates_avatar ⟨fun _ => true, 100⟩
    [⟨1, "Bob", none, Rank.regular, AvatarStyle.gravatar⟩]
    ["avatars/bob.png"] ⟨1, "Bob", none, Rank.regular, AvatarStyle.gravatar⟩
    "Carl" ⟨1, "Carl", none, Rank.regular, AvatarStyle.gravatar⟩
    ["avatars/carl.png"] rfl (by decide) (by decide) (by decide)

/-- Witness for C10: tag 5 is not persisted for user 7; the duplicated
target [5, 5] yields two identical addition entries (7, 5). -/
theorem C10_no_dedup_of_target_witness :
    (update_user_blocklist ⟨[⟨7, 1⟩]⟩ ⟨none⟩ (fun _ => []) 7
        (some [⟨5⟩, ⟨5⟩])).1.1 = [⟨7, 5⟩, ⟨7, 5⟩] :=
  (C10_no_dedup_of_target ⟨[⟨7, 1⟩]⟩ ⟨none⟩ (fun _ => []) 7 5 (by decide)).1
